import Mathlib

/-!
Verification development for the study-buddy single-page application.

The application is a React component (`App`) driving a finite state machine
over UI screens, plus a thin service wrapper (`geminiService.ts`) around a
remote generative-AI endpoint.  We embed the data model and the event
handlers as pure Lean functions: every `useState` field becomes a field of
`AppData`, each async handler becomes a function taking the current state
and the outcome of the (single) Content Service call it makes, returning
the new state together with a `Bool` recording whether the service was
actually invoked on that code path.
-/

namespace StudyBuddy

/-- The `AppState` enum from `types.ts`. -/
inductive AppState where
  | INITIAL
  | GENERATING_GUIDE
  | STUDYING
  | GENERATING_KEY_POINTS
  | GENERATING_SUMMARY
  | ASKING_QUESTION
  | EVALUATING_ANSWER
  | SHOWING_FEEDBACK
  | QUIZ_COMPLETE
  | SHOWING_HISTORY
  | ERROR
deriving DecidableEq, Repr

/-- The `Source` interface from `types.ts`: a grounding citation. -/
structure Source where
  uri : String
  title : String
deriving DecidableEq, Repr

/-- The `EvaluationFeedback` interface from `types.ts`. -/
structure EvaluationFeedback where
  evaluation : String
  explanation : String
deriving DecidableEq, Repr

/-- The `HistoryItem` interface from `types.ts`. -/
structure HistoryItem where
  topic : String
  guide : String
  sources : List Source
deriving DecidableEq, Repr

/-- A raw grounding chunk as mapped in `generateStudyGuide`
(`{uri: chunk.web?.uri, title: chunk.web?.title}`): either field may be
absent (`undefined`). -/
structure RawSource where
  uri : Option String
  title : Option String
deriving DecidableEq, Repr

/-- JavaScript truthiness of an optional string: `undefined` and the empty
string are falsy, every other string is truthy. -/
def truthy : Option String → Bool
  | none => false
  | some s => !s.isEmpty

/-- JavaScript `!s.trim()`: the blank test used by the submit guards, true
iff the string is empty or entirely whitespace. -/
def isBlank (s : String) : Bool := s.toList.all Char.isWhitespace

/-- JavaScript `s.toLowerCase()` as used by the case-insensitive history
check: lower-case the string character by character. -/
def jsToLower (s : String) : String := String.mk (s.toList.map Char.toLower)

/-- The filter step of `generateStudyGuide`
(`.filter((source) => source.uri && source.title)`), followed by the
now-safe extraction of both fields. -/
def filterSources (l : List RawSource) : List Source :=
  (l.filter (fun c => truthy c.uri && truthy c.title)).map
    (fun c => ⟨c.uri.getD "", c.title.getD ""⟩)

/-- One `Map.prototype.set` step of a JavaScript `Map` represented as an
insertion-ordered association list: setting an existing key overwrites its
value in place (the key keeps its original position); a new key is appended. -/
def jsMapSet (m : List (String × Source)) (k : String) (v : Source) :
    List (String × Source) :=
  if m.any (fun p => p.1 == k) then
    m.map (fun p => if p.1 == k then (p.1, v) else p)
  else
    m ++ [(k, v)]

/-- `new Map(pairs)`: insert each pair in order into an empty map. -/
def jsMapOfList (l : List (String × Source)) : List (String × Source) :=
  l.foldl (fun m p => jsMapSet m p.1 p.2) []

/-- The deduplication step of `generateStudyGuide`
(`Array.from(new Map(sources.map(item => [item['uri'], item])).values())`). -/
def dedupeByUri (l : List Source) : List Source :=
  (jsMapOfList (l.map (fun s => (s.uri, s)))).map Prod.snd

/-- The whole source post-processing of `generateStudyGuide`: filter out
entries missing `uri` or `title`, then deduplicate by `uri` via a JS `Map`. -/
def postprocessSources (l : List RawSource) : List Source :=
  dedupeByUri (filterSources l)

/-- Deduplication as the spec words it: keep the FIRST occurrence of each
`uri`, dropping later entries with the same `uri`.  Stated from the spec for
comparison with `dedupeByUri`, which is translated from the code. -/
def dedupeByUriFirst (l : List Source) : List Source :=
  l.foldl (fun acc s => if acc.any (fun t => t.uri == s.uri) then acc
                        else acc ++ [s]) []

/-- First occurrences of strings in order: the subsequence of first
occurrences of each distinct value, in first-seen order. -/
def firstOccurrences (l : List String) : List String :=
  l.foldl (fun acc u => if acc.any (fun x => x == u) then acc
                        else acc ++ [u]) []

/-- The quiz length constant (`const quizLength = 5`). -/
def quizLength : Nat := 5

/-- All `useState` fields of the `App` component. -/
structure AppData where
  appState : AppState
  error : Option String
  topic : String
  studyGuide : String
  sources : List Source
  keyPoints : String
  summary : String
  questionsAsked : List String
  currentQuestion : String
  userAnswer : String
  feedback : Option EvaluationFeedback
  score : Nat
  history : List HistoryItem
  darkMode : Bool
deriving DecidableEq, Repr

/-- `resetQuizState`: clear asked questions, current question, pending
answer, feedback and score. -/
def resetQuizState (s : AppData) : AppData :=
  { s with questionsAsked := [], currentQuestion := "", userAnswer := "",
           feedback := none, score := 0 }

/-- `resetAllState`: clear topic, guide, sources, key points, summary and
error, reset the quiz, and return to `INITIAL`.  History is untouched. -/
def resetAllState (s : AppData) : AppData :=
  { resetQuizState s with topic := "", studyGuide := "", sources := [],
                          keyPoints := "", summary := "", error := none,
                          appState := AppState.INITIAL }

/-- The synchronous prefix of `handleTopicSubmit` (everything before the
`await`): enter `GENERATING_GUIDE`, clear error, guide, sources, key
points, summary, and reset the quiz. -/
def topicSubmitStart (s : AppData) : AppData :=
  resetQuizState { s with appState := AppState.GENERATING_GUIDE,
                          error := none, studyGuide := "", sources := [],
                          keyPoints := "", summary := "" }

/-- `handleTopicSubmit`, given the outcome of the `generateStudyGuide`
call.  Returns the new state and whether the service was called.  A
whitespace-only topic is rejected before any state change. -/
def handleTopicSubmit (s : AppData)
    (svc : Except String (String × List Source)) : AppData × Bool :=
  if isBlank s.topic then (s, false)
  else
    let s1 := topicSubmitStart s
    match svc with
    | Except.ok (guide, srcs) =>
      let s2 := { s1 with studyGuide := guide, sources := srcs,
                          appState := AppState.STUDYING }
      if s2.history.any (fun item => jsToLower item.topic == jsToLower s.topic)
      then (s2, true)
      else ({ s2 with history := ⟨s.topic, guide, srcs⟩ :: s2.history }, true)
    | Except.error msg =>
      ({ s1 with error := some msg, appState := AppState.ERROR }, true)

/-- `fetchNextQuestion`, given the outcome of the `generateQuizQuestion`
call: clear the pending answer and feedback; if five questions were already
asked, go to `QUIZ_COMPLETE` without calling the service; otherwise call
it, and on success record the question and append it to the asked list. -/
def fetchNextQuestion (s : AppData) (svc : Except String String) :
    AppData × Bool :=
  let s0 := { s with userAnswer := "", feedback := none }
  if quizLength ≤ s0.questionsAsked.length then
    ({ s0 with appState := AppState.QUIZ_COMPLETE }, false)
  else
    let s1 := { s0 with appState := AppState.ASKING_QUESTION }
    match svc with
    | Except.ok q =>
      ({ s1 with currentQuestion := q,
                 questionsAsked := s1.questionsAsked ++ [q] }, true)
    | Except.error msg =>
      ({ s1 with error := some msg, appState := AppState.ERROR }, true)

/-- `handleStartQuiz`: reset the quiz state, enter `ASKING_QUESTION`, then
run `fetchNextQuestion` — which, in the React source, is the same render's
closure.  The `setX` calls of `resetQuizState` only enqueue updates, so the
`questionsAsked.length >= quizLength` check inside `fetchNextQuestion`
reads the STALE pre-reset list captured by the closure, while the
functional update `setQuestionsAsked(prev => [...prev, question])` applies
to the freshly reset (empty) list.  Hence the length guard here tests
`s.questionsAsked` (the pre-click value), not the reset list: starting a
quiz from `QUIZ_COMPLETE` ("Try Again") sees length 5, makes no service
call, and lands back in `QUIZ_COMPLETE` over the emptied quiz state. -/
def handleStartQuiz (s : AppData) (svc : Except String String) :
    AppData × Bool :=
  let s1 := { resetQuizState s with appState := AppState.ASKING_QUESTION,
                                    userAnswer := "", feedback := none }
  if quizLength ≤ s.questionsAsked.length then
    ({ s1 with appState := AppState.QUIZ_COMPLETE }, false)
  else
    match svc with
    | Except.ok q =>
      ({ s1 with currentQuestion := q,
                 questionsAsked := s1.questionsAsked ++ [q] }, true)
    | Except.error msg =>
      ({ s1 with error := some msg, appState := AppState.ERROR }, true)

/-- `handleAnswerSubmit`, given the outcome of the `evaluateAnswer` call.
A whitespace-only answer is rejected before any state change.  On success
the feedback is stored and the score is incremented exactly when the
evaluation string equals "Correct". -/
def handleAnswerSubmit (s : AppData)
    (svc : Except String EvaluationFeedback) : AppData × Bool :=
  if isBlank s.userAnswer then (s, false)
  else
    let s1 := { s with appState := AppState.EVALUATING_ANSWER, error := none }
    match svc with
    | Except.ok fb =>
      ({ s1 with feedback := some fb,
                 score := if fb.evaluation == "Correct" then s1.score + 1
                          else s1.score,
                 appState := AppState.SHOWING_FEEDBACK }, true)
    | Except.error msg =>
      ({ s1 with error := some msg, appState := AppState.ERROR }, true)

/-- `handleGetKeyPoints`, given the outcome of the `generateKeyPoints`
call: if key points are already shown, clear them with no service call;
otherwise hide the summary, call the service and show the result. -/
def handleGetKeyPoints (s : AppData) (svc : Except String String) :
    AppData × Bool :=
  if !s.keyPoints.isEmpty then ({ s with keyPoints := "" }, false)
  else
    let s1 := { s with summary := "",
                       appState := AppState.GENERATING_KEY_POINTS }
    match svc with
    | Except.ok pts =>
      ({ s1 with keyPoints := pts, appState := AppState.STUDYING }, true)
    | Except.error msg =>
      ({ s1 with error := some msg, appState := AppState.ERROR }, true)

/-- `handleGetSummary`, given the outcome of the `generateSummary` call:
mirror image of `handleGetKeyPoints`. -/
def handleGetSummary (s : AppData) (svc : Except String String) :
    AppData × Bool :=
  if !s.summary.isEmpty then ({ s with summary := "" }, false)
  else
    let s1 := { s with keyPoints := "",
                       appState := AppState.GENERATING_SUMMARY }
    match svc with
    | Except.ok txt =>
      ({ s1 with summary := txt, appState := AppState.STUDYING }, true)
    | Except.error msg =>
      ({ s1 with error := some msg, appState := AppState.ERROR }, true)

/-- `handleSelectHistoryItem`: reset all transient state, then load the
entry's topic, guide and sources and enter `STUDYING`.  The handler
contains no Content Service call, so it is a pure function of the state
and the chosen item. -/
def handleSelectHistoryItem (s : AppData) (item : HistoryItem) : AppData :=
  { resetAllState s with topic := item.topic, studyGuide := item.guide,
                         sources := item.sources,
                         appState := AppState.STUDYING }

/-- A JavaScript value as produced by `JSON.parse`.  The mount effect of
`App` stores the parse result in the history state WITHOUT any shape
check, so the loaded value can be any of these. -/
inductive JsValue where
  | jnull
  | jbool (b : Bool)
  | jnum (n : Int)
  | jstr (s : String)
  | jarr (items : List JsValue)
  | jobj (fields : List (String × JsValue))
deriving Repr

/-- Field lookup in a parsed JSON object. -/
def getField (fields : List (String × JsValue)) (k : String) :
    Option JsValue :=
  (fields.find? (fun p => p.1 == k)).map Prod.snd

/-- Extract a JSON string. -/
def decodeStr : JsValue → Option String
  | JsValue.jstr s => some s
  | _ => none

/-- A parsed value of the shape the `Source` interface declares. -/
def decodeSource (v : JsValue) : Option Source :=
  match v with
  | JsValue.jobj fields =>
    match (getField fields "uri").bind decodeStr,
          (getField fields "title").bind decodeStr with
    | some u, some t => some ⟨u, t⟩
    | _, _ => none
  | _ => none

/-- Decode a list of parsed values as `Source`s, all or nothing. -/
def decodeSources : List JsValue → Option (List Source)
  | [] => some []
  | v :: vs =>
    match decodeSource v, decodeSources vs with
    | some s, some ss => some (s :: ss)
    | _, _ => none

/-- A parsed value of the shape the `HistoryItem` interface declares. -/
def decodeHistoryItem (v : JsValue) : Option HistoryItem :=
  match v with
  | JsValue.jobj fields =>
    match (getField fields "topic").bind decodeStr,
          (getField fields "guide").bind decodeStr,
          getField fields "sources" with
    | some tp, some gd, some (JsValue.jarr items) =>
      match decodeSources items with
      | some srcs => some ⟨tp, gd, srcs⟩
      | none => none
    | _, _, _ => none
  | _ => none

/-- Decode a list of parsed values as `HistoryItem`s, all or nothing. -/
def decodeHistoryItems : List JsValue → Option (List HistoryItem)
  | [] => some []
  | v :: vs =>
    match decodeHistoryItem v, decodeHistoryItems vs with
    | some it, some its => some (it :: its)
    | _, _ => none

/-- A parsed value that is a well-shaped serialized history list. -/
def decodeHistory : JsValue → Option (List HistoryItem)
  | JsValue.jarr items => decodeHistoryItems items
  | _ => none

/-- `JSON.stringify` of a `Source`, seen as the value it parses back to. -/
def encodeSource (s : Source) : JsValue :=
  JsValue.jobj [("uri", JsValue.jstr s.uri), ("title", JsValue.jstr s.title)]

/-- `JSON.stringify` of a `HistoryItem`, seen as the value it parses back
to. -/
def encodeHistoryItem (it : HistoryItem) : JsValue :=
  JsValue.jobj [("topic", JsValue.jstr it.topic),
                ("guide", JsValue.jstr it.guide),
                ("sources", JsValue.jarr (it.sources.map encodeSource))]

/-- `JSON.stringify` of the whole history list, seen as the value it
parses back to. -/
def encodeHistory (h : List HistoryItem) : JsValue :=
  JsValue.jarr (h.map encodeHistoryItem)

/-- What `localStorage.getItem('studyBuddyHistory')` followed by
`JSON.parse` can yield at startup: no stored record (or an empty, falsy
one), a stored record on which `JSON.parse` throws (the exception is
caught), or a successful parse producing an arbitrary value — the code
never checks its shape. -/
inductive StorageRead where
  | missing
  | corrupt
  | parsed (v : JsValue)
deriving Repr

/-- The raw history value held by the state after the mount effect of
`App`: a missing record leaves the initial empty array, a parse failure is
caught (leaving the initial empty array), and ANY successfully parsed
value is stored as-is, with no shape validation. -/
def loadHistoryRaw : StorageRead → JsValue
  | StorageRead.missing => encodeHistory []
  | StorageRead.corrupt => encodeHistory []
  | StorageRead.parsed v => v

/-- The well-typed view of the post-mount history used by the state
machine model: the decoded list when the raw loaded value is a well-shaped
history, `[]` for missing or unparseable records.  For a parsed value that
is NOT a well-shaped history the program keeps the junk value unchecked
(see `loadHistoryRaw`); this typed view defaults such reads to `[]` only
so that the machine model is total over `StorageRead`. -/
def loadHistory (r : StorageRead) : List HistoryItem :=
  match r with
  | StorageRead.missing => []
  | StorageRead.corrupt => []
  | StorageRead.parsed v => (decodeHistory v).getD []

/-- The history-saving effect of `App`: a successful `setItem` replaces the
stored record with the serialized list; a storage failure is caught and
leaves the stored record unchanged (the app continues). -/
def saveHistory (st : StorageRead) (h : List HistoryItem) (ok : Bool) :
    StorageRead :=
  if ok then StorageRead.parsed (encodeHistory h) else st

/-- The state of `App` right after mount: all `useState` defaults, with the
history loaded from storage and dark mode set from the media query. -/
def initialAppData (r : StorageRead) (dark : Bool) : AppData :=
  { appState := AppState.INITIAL, error := none, topic := "",
    studyGuide := "", sources := [], keyPoints := "", summary := "",
    questionsAsked := [], currentQuestion := "", userAnswer := "",
    feedback := none, score := 0, history := loadHistory r,
    darkMode := dark }

/-- The post-processing of `evaluateAnswer` in `geminiService.ts`: a
structured response that fails to parse is caught and surfaced as the
fixed human-readable failure message. -/
def evaluateAnswerResult (parsed : Option EvaluationFeedback) :
    Except String EvaluationFeedback :=
  match parsed with
  | some fb => Except.ok fb
  | none => Except.error "Failed to evaluate the answer. Please try again."

/-- The result assembly of `generateStudyGuide` in `geminiService.ts`:
the response text together with the post-processed grounding sources. -/
def generateStudyGuideResult (guide : String) (chunks : List RawSource) :
    String × List Source :=
  (guide, postprocessSources chunks)

/-- Every user-triggered event of `App` that mutates state, with the
outcome of the single Content Service call the handler makes (if any). -/
inductive Action where
  | topicSubmit (svc : Except String (String × List Source))
  | startQuiz (svc : Except String String)
  | nextQuestion (svc : Except String String)
  | answerSubmit (svc : Except String EvaluationFeedback)
  | getKeyPoints (svc : Except String String)
  | getSummary (svc : Except String String)
  | selectHistory (item : HistoryItem)
  | resetAll
  | viewAllHistory
  | backToInitial
  | editTopic (t : String)
  | editAnswer (a : String)
  | toggleDark

/-- One step of the application state machine: dispatch an event to its
handler.  `viewAllHistory` and `backToInitial` are the two plain
`setAppState` click handlers of the history views; `editTopic` and
`editAnswer` are the controlled-input `onChange` handlers. -/
def step (s : AppData) : Action → AppData
  | Action.topicSubmit svc => (handleTopicSubmit s svc).1
  | Action.startQuiz svc => (handleStartQuiz s svc).1
  | Action.nextQuestion svc => (fetchNextQuestion s svc).1
  | Action.answerSubmit svc => (handleAnswerSubmit s svc).1
  | Action.getKeyPoints svc => (handleGetKeyPoints s svc).1
  | Action.getSummary svc => (handleGetSummary s svc).1
  | Action.selectHistory item => handleSelectHistoryItem s item
  | Action.resetAll => resetAllState s
  | Action.viewAllHistory => { s with appState := AppState.SHOWING_HISTORY }
  | Action.backToInitial => { s with appState := AppState.INITIAL }
  | Action.editTopic t => { s with topic := t }
  | Action.editAnswer a => { s with userAnswer := a }
  | Action.toggleDark => { s with darkMode := !s.darkMode }

/-- The reachable states of the application: the mount state, closed under
steps. -/
inductive Reachable : AppData → Prop where
  | init (r : StorageRead) (dark : Bool) : Reachable (initialAppData r dark)
  | step {s : AppData} (a : Action) : Reachable s → Reachable (step s a)

/-- A concrete played-out run: submit a topic, start a quiz, fetch five
questions, then request a sixth — which completes the quiz.  The final
state is on the `QUIZ_COMPLETE` screen with five questions asked. -/
def tryAgainRun : AppData :=
  step (step (step (step (step (step (step (step
    (initialAppData StorageRead.missing true)
    (Action.editTopic "t"))
    (Action.topicSubmit (Except.ok ("g", []))))
    (Action.startQuiz (Except.ok "q1")))
    (Action.nextQuestion (Except.ok "q2")))
    (Action.nextQuestion (Except.ok "q3")))
    (Action.nextQuestion (Except.ok "q4")))
    (Action.nextQuestion (Except.ok "q5")))
    (Action.nextQuestion (Except.ok "q6"))

theorem jsMapOfList_append (l : List (String × Source)) (p : String × Source) :
    jsMapOfList (l ++ [p]) = jsMapSet (jsMapOfList l) p.1 p.2 := by
  simp [jsMapOfList, List.foldl_append]

theorem firstOccurrences_append (u : List String) (k : String) :
    firstOccurrences (u ++ [k]) =
      if (firstOccurrences u).any (fun x => x == k) then firstOccurrences u
      else firstOccurrences u ++ [k] := by
  simp [firstOccurrences, List.foldl_append]

theorem any_fst_eq (m : List (String × Source)) (k : String) :
    m.any (fun p => p.1 == k) = (m.map Prod.fst).any (fun x => x == k) := by
  induction m with
  | nil => rfl
  | cons p m ih => simp [List.any_cons, ih]

theorem jsMapSet_keys (m : List (String × Source)) (k : String) (v : Source) :
    (jsMapSet m k v).map Prod.fst =
      if m.any (fun p => p.1 == k) then m.map Prod.fst
      else m.map Prod.fst ++ [k] := by
  unfold jsMapSet
  split
  · rw [List.map_map]
    exact List.map_congr_left fun p _ => by
      by_cases h : p.1 = k <;> simp [h]
  · simp

theorem jsMapOfList_keys (l : List (String × Source)) :
    (jsMapOfList l).map Prod.fst = firstOccurrences (l.map Prod.fst) := by
  induction l using List.reverseRecOn with
  | nil => rfl
  | append_singleton l p ih =>
    rw [List.map_append, List.map_singleton, jsMapOfList_append,
      firstOccurrences_append, jsMapSet_keys, any_fst_eq, ih]

theorem firstOccurrences_nodup (u : List String) :
    (firstOccurrences u).Nodup := by
  induction u using List.reverseRecOn with
  | nil => simp [firstOccurrences]
  | append_singleton u k ih =>
    rw [firstOccurrences_append]
    split
    · exact ih
    · rename_i h
      have hnotin : k ∉ firstOccurrences u := by
        intro hk
        exact h (List.any_eq_true.mpr ⟨k, hk, by simp⟩)
      simp [List.nodup_append, ih, hnotin]

theorem jsMapOfList_mem_last (l : List (String × Source)) :
    ∀ p ∈ jsMapOfList l, (l.filter (fun q => q.1 == p.1)).getLast? = some p := by
  induction l using List.reverseRecOn with
  | nil => simp [jsMapOfList]
  | append_singleton l kv ih =>
    obtain ⟨k0, v0⟩ := kv
    intro p hp
    rw [jsMapOfList_append] at hp
    simp only [jsMapSet] at hp
    by_cases hc : (jsMapOfList l).any (fun p => p.1 == k0)
    · rw [if_pos hc] at hp
      obtain ⟨q, hq, hqp⟩ := List.mem_map.mp hp
      by_cases hqk : q.1 == k0
      · rw [if_pos hqk] at hqp
        have hk : q.1 = k0 := eq_of_beq hqk
        subst hqp
        rw [List.filter_append]
        have : (List.filter (fun r => r.1 == (q.1, v0).1) [(k0, v0)]) =
            [(k0, v0)] := by
          simp [hk]
        rw [this, List.getLast?_concat]
        simp [hk]
      · rw [if_neg (by simp_all)] at hqp
        subst hqp
        have hqe : ¬ q.1 = k0 := by simpa using hqk
        have hne : (k0 == q.1) = false :=
          beq_eq_false_iff_ne.mpr fun h => hqe h.symm
        rw [List.filter_append]
        have : (List.filter (fun r => r.1 == q.1) [(k0, v0)]) = [] := by
          simp [hne]
        rw [this, List.append_nil]
        exact ih q hq
    · rw [if_neg hc] at hp
      rcases List.mem_append.mp hp with hin | hone
      · have hne' : (p.1 == k0) = false := by
          rcases hb : (p.1 == k0) with _ | _
          · rfl
          · exact absurd (List.any_eq_true.mpr ⟨p, hin, hb⟩) hc
        have hpe : ¬ p.1 = k0 := by simpa using hne'
        have hne : (k0 == p.1) = false :=
          beq_eq_false_iff_ne.mpr fun h => hpe h.symm
        rw [List.filter_append]
        have : (List.filter (fun r => r.1 == p.1) [(k0, v0)]) = [] := by
          simp [hne]
        rw [this, List.append_nil]
        exact ih p hin
      · simp only [List.mem_singleton] at hone
        subst hone
        rw [List.filter_append]
        have : (List.filter (fun r => r.1 == (k0, v0).1) [(k0, v0)]) =
            [(k0, v0)] := by
          simp
        rw [this, List.getLast?_concat]

theorem jsMapOfList_key_eq_uri (fl : List Source) :
    ∀ p ∈ jsMapOfList (fl.map (fun s => (s.uri, s))), p.1 = p.2.uri := by
  intro p hp
  have hlast := jsMapOfList_mem_last (fl.map (fun s => (s.uri, s))) p hp
  have hmem : p ∈ (fl.map (fun s => (s.uri, s))).filter
      (fun q => q.1 == p.1) := List.mem_of_mem_getLast? hlast
  have hmem' : p ∈ fl.map (fun s => (s.uri, s)) :=
    List.mem_of_mem_filter hmem
  obtain ⟨s, _, hs⟩ := List.mem_map.mp hmem'
  rw [← hs]

/-- C1 counterexample: on two candidate sources sharing a `uri` with
different titles, the code keeps the LAST occurrence's entry, not the
first, so the post-processing differs from the claimed
filter-then-keep-first-occurrence pipeline at this input. -/
theorem C1_counterexample :
    postprocessSources
        [⟨some "a", some "t1"⟩, ⟨some "a", some "t2"⟩] =
      [⟨"a", "t2"⟩] ∧
    dedupeByUriFirst (filterSources
        [⟨some "a", some "t1"⟩, ⟨some "a", some "t2"⟩]) =
      [⟨"a", "t1"⟩] ∧
    postprocessSources
        [⟨some "a", some "t1"⟩, ⟨some "a", some "t2"⟩] ≠
      dedupeByUriFirst (filterSources
        [⟨some "a", some "t1"⟩, ⟨some "a", some "t2"⟩]) := by decide

/-- C1 amended: the source post-processing removes every entry missing
`uri` or `title` (JS-falsy, so absent or empty), then deduplicates by
`uri` keeping one entry per distinct `uri`, in the relative order of the
uris' first occurrences — but the surviving entry for each `uri` is the
LAST one carrying it (a JS `Map` overwrites the value on duplicate keys),
not the first. -/
theorem C1_dedupe_amended (l : List RawSource) :
    (postprocessSources l).map Source.uri =
      firstOccurrences ((filterSources l).map Source.uri) ∧
    ((postprocessSources l).map Source.uri).Nodup ∧
    (∀ s ∈ postprocessSources l,
      ((filterSources l).filter (fun t => t.uri == s.uri)).getLast? =
        some s) := by
  have hkey_uri := jsMapOfList_key_eq_uri (filterSources l)
  have h1 : (postprocessSources l).map Source.uri =
      (jsMapOfList ((filterSources l).map
        (fun s => (s.uri, s)))).map Prod.fst := by
    unfold postprocessSources dedupeByUri
    rw [List.map_map]
    exact List.map_congr_left fun p hp => (hkey_uri p hp).symm
  have h2 : ((filterSources l).map
      (fun s => (s.uri, s))).map Prod.fst =
      (filterSources l).map Source.uri := by
    rw [List.map_map]
    exact List.map_congr_left fun s _ => rfl
  refine ⟨?_, ?_, ?_⟩
  · rw [h1, jsMapOfList_keys, h2]
  · rw [h1, jsMapOfList_keys, h2]
    exact firstOccurrences_nodup _
  · intro s hs
    have hs' : s ∈ (jsMapOfList ((filterSources l).map
        (fun s => (s.uri, s)))).map Prod.snd := by
      simpa [postprocessSources, dedupeByUri] using hs
    obtain ⟨p, hp, hps⟩ := List.mem_map.mp hs'
    have hlast := jsMapOfList_mem_last _ p hp
    have hpu : p.1 = s.uri := by rw [hkey_uri p hp, hps]
    rw [hpu, List.filter_map, List.getLast?_map] at hlast
    obtain ⟨t, ht, hts⟩ := Option.map_eq_some'.mp hlast
    have hts' : t = s := by
      have h := congrArg Prod.snd hts
      simpa [hps] using h
    rw [hts'] at ht
    exact ht

/-- C1 witness for the amended theorem: on a concrete list with a
duplicated `uri`, the surviving entry is the last with that `uri`. -/
theorem C1_dedupe_amended_witness :
    ((filterSources
        [⟨some "a", some "t1"⟩, ⟨some "b", some "t2"⟩,
         ⟨some "a", some "t3"⟩]).filter
      (fun t => t.uri == (Source.mk "a" "t3").uri)).getLast? =
      some (Source.mk "a" "t3") :=
  (C1_dedupe_amended
    [⟨some "a", some "t1"⟩, ⟨some "b", some "t2"⟩,
     ⟨some "a", some "t3"⟩]).2.2
    (Source.mk "a" "t3") (by decide)

theorem decodeSource_encodeSource (s : Source) :
    decodeSource (encodeSource s) = some s := rfl

theorem decodeSources_map_encodeSource (l : List Source) :
    decodeSources (l.map encodeSource) = some l := by
  induction l with
  | nil => rfl
  | cons s l ih => simp [decodeSources, decodeSource_encodeSource, ih]

theorem decodeHistoryItem_encodeHistoryItem (it : HistoryItem) :
    decodeHistoryItem (encodeHistoryItem it) = some it := by
  obtain ⟨tp, gd, srcs⟩ := it
  simp [decodeHistoryItem, encodeHistoryItem, getField, decodeStr,
    decodeSources_map_encodeSource]

theorem decodeHistoryItems_map_encode (h : List HistoryItem) :
    decodeHistoryItems (h.map encodeHistoryItem) = some h := by
  induction h with
  | nil => rfl
  | cons it h ih =>
    simp [decodeHistoryItems, decodeHistoryItem_encodeHistoryItem, ih]

theorem decodeHistory_encodeHistory (h : List HistoryItem) :
    decodeHistory (encodeHistory h) = some h := by
  simp [decodeHistory, encodeHistory, decodeHistoryItems_map_encode]

/-- C2: the claim describes the intended quiz flow, but the code deviates
on the "Try Again" path.  In `handleStartQuiz`, `fetchNextQuestion` is the
same render's closure and reads the STALE pre-reset `questionsAsked`, so
restarting from the `QUIZ_COMPLETE` screen (five questions asked) makes no
Content Service call and immediately re-enters `QUIZ_COMPLETE` over the
freshly emptied quiz state: the program reaches `QUIZ_COMPLETE` with zero
questions asked, contradicting "reaches QuizComplete exactly when 5
questions have been asked".  This theorem evaluates the faithful embedding
on a reachable completed-quiz state and a clicked "Try Again". -/
theorem C2_try_again_code_bug :
    Reachable tryAgainRun ∧
    tryAgainRun.appState = AppState.QUIZ_COMPLETE ∧
    tryAgainRun.questionsAsked.length = quizLength ∧
    (handleStartQuiz tryAgainRun (Except.ok "q7")).2 = false ∧
    (handleStartQuiz tryAgainRun (Except.ok "q7")).1.appState =
      AppState.QUIZ_COMPLETE ∧
    (handleStartQuiz tryAgainRun (Except.ok "q7")).1.questionsAsked = [] ∧
    (handleStartQuiz tryAgainRun (Except.ok "q7")).1.score = 0 := by
  refine ⟨?_, by decide, by decide, by decide, by decide, by decide,
    by decide⟩
  exact Reachable.step _ (Reachable.step _ (Reachable.step _
    (Reachable.step _ (Reachable.step _ (Reachable.step _
      (Reachable.step _ (Reachable.step _
        (Reachable.init StorageRead.missing true))))))))

/-- C3: for a submitted answer whose evaluation succeeds, the score is
incremented by exactly 1 if and only if the returned evaluation string
equals "Correct" exactly; any other evaluation string ("Partially
Correct", "Incorrect", or unrecognized) leaves the score unchanged. -/
theorem C3_score_increment_iff (s : AppData) (fb : EvaluationFeedback)
    (h : isBlank s.userAnswer = false) :
    (handleAnswerSubmit s (Except.ok fb)).1.feedback = some fb ∧
    (handleAnswerSubmit s (Except.ok fb)).1.appState = AppState.SHOWING_FEEDBACK ∧
    ((handleAnswerSubmit s (Except.ok fb)).1.score = s.score + 1 ↔
      fb.evaluation = "Correct") ∧
    (fb.evaluation ≠ "Correct" →
      (handleAnswerSubmit s (Except.ok fb)).1.score = s.score) := by
  by_cases hc : fb.evaluation = "Correct" <;>
    simp [handleAnswerSubmit, h, hc]

/-- C3 witness: a concrete "Partially Correct" evaluation does not change
the score, while a "Correct" one increments it. -/
theorem C3_score_increment_iff_witness :
    (handleAnswerSubmit
        { initialAppData StorageRead.missing true with userAnswer := "a" }
        (Except.ok ⟨"Partially Correct", "close"⟩)).1.score =
      (initialAppData StorageRead.missing true).score :=
  (C3_score_increment_iff
      { initialAppData StorageRead.missing true with userAnswer := "a" }
      ⟨"Partially Correct", "close"⟩ (by decide)).2.2.2 (by decide)

/-- C6: submitting a whitespace-only topic is rejected with no state change
and no service call; from `INITIAL`, a non-whitespace topic first enters
`GENERATING_GUIDE`, then moves to `STUDYING` carrying the returned guide
and sources on service success, or to `ERROR` carrying the failure message
on service failure. -/
theorem C6_topic_submit (s : AppData)
    (_hInit : s.appState = AppState.INITIAL) :
    (isBlank s.topic = true →
      ∀ svc, handleTopicSubmit s svc = (s, false)) ∧
    (isBlank s.topic = false →
      (topicSubmitStart s).appState = AppState.GENERATING_GUIDE ∧
      (∀ guide srcs,
        (handleTopicSubmit s (Except.ok (guide, srcs))).1.appState =
            AppState.STUDYING ∧
        (handleTopicSubmit s (Except.ok (guide, srcs))).1.studyGuide = guide ∧
        (handleTopicSubmit s (Except.ok (guide, srcs))).1.sources = srcs) ∧
      (∀ msg,
        (handleTopicSubmit s (Except.error msg)).1.appState = AppState.ERROR ∧
        (handleTopicSubmit s (Except.error msg)).1.error = some msg)) := by
  refine ⟨fun he svc => by simp [handleTopicSubmit, he], fun hne => ?_⟩
  refine ⟨by simp [topicSubmitStart, resetQuizState], fun guide srcs => ?_,
    fun msg => by simp [handleTopicSubmit, hne]⟩
  simp only [handleTopicSubmit, hne, Bool.false_eq_true, if_false]
  split <;> simp

/-- C6 witness: from the mount state with topic "t", a failing service call
yields the `ERROR` state. -/
theorem C6_topic_submit_witness :
    (handleTopicSubmit
        { initialAppData StorageRead.missing true with topic := "t" }
        (Except.error "boom")).1.appState = AppState.ERROR :=
  (((C6_topic_submit
      { initialAppData StorageRead.missing true with topic := "t" }
      rfl).2 (by decide)).2.2 "boom").1

/-- C7: every Content Service call failure moves the machine to `ERROR`
carrying the human-readable message (including the unparseable structured
evaluation output, surfaced by `evaluateAnswer` as its fixed message) —
for start-quiz this concerns the states in which the handler actually
calls the service, i.e. fewer than five stale asked questions; with five
it makes no call, so there is no failure to surface.  The user-initiated
recovery `resetAllState` returns to the mount state, discarding everything
except the persisted history (and the UI dark-mode preference). -/
theorem C7_failure_to_error :
    (∀ s msg, isBlank s.topic = false →
      (handleTopicSubmit s (Except.error msg)).1.appState = AppState.ERROR ∧
      (handleTopicSubmit s (Except.error msg)).1.error = some msg) ∧
    (∀ s msg, s.questionsAsked.length < quizLength →
      (fetchNextQuestion s (Except.error msg)).1.appState = AppState.ERROR ∧
      (fetchNextQuestion s (Except.error msg)).1.error = some msg) ∧
    (∀ (s : AppData) msg, s.questionsAsked.length < quizLength →
      (handleStartQuiz s (Except.error msg)).1.appState = AppState.ERROR ∧
      (handleStartQuiz s (Except.error msg)).1.error = some msg) ∧
    (∀ (s : AppData) svc, quizLength ≤ s.questionsAsked.length →
      (handleStartQuiz s svc).2 = false) ∧
    (∀ s msg, isBlank s.userAnswer = false →
      (handleAnswerSubmit s (Except.error msg)).1.appState = AppState.ERROR ∧
      (handleAnswerSubmit s (Except.error msg)).1.error = some msg) ∧
    (∀ s msg, s.keyPoints.isEmpty = true →
      (handleGetKeyPoints s (Except.error msg)).1.appState = AppState.ERROR ∧
      (handleGetKeyPoints s (Except.error msg)).1.error = some msg) ∧
    (∀ s msg, s.summary.isEmpty = true →
      (handleGetSummary s (Except.error msg)).1.appState = AppState.ERROR ∧
      (handleGetSummary s (Except.error msg)).1.error = some msg) ∧
    (evaluateAnswerResult none =
      Except.error "Failed to evaluate the answer. Please try again.") ∧
    (∀ s : AppData, resetAllState s =
      { initialAppData StorageRead.missing s.darkMode with
          history := s.history }) := by
  refine ⟨fun s msg h => by simp [handleTopicSubmit, h],
    fun s msg h => ?_,
    fun s msg h => ?_,
    fun s svc h => by simp [handleStartQuiz, resetQuizState, h],
    fun s msg h => by simp [handleAnswerSubmit, h],
    fun s msg h => by simp [handleGetKeyPoints, h],
    fun s msg h => by simp [handleGetSummary, h],
    rfl,
    fun s => rfl⟩
  · have hn : ¬ (quizLength ≤ s.questionsAsked.length) := Nat.not_le.mpr h
    simp [fetchNextQuestion, hn]
  · have hn : ¬ (quizLength ≤ s.questionsAsked.length) := Nat.not_le.mpr h
    simp [handleStartQuiz, resetQuizState, hn]

/-- C7 witness: a failing question fetch from the mount state lands in
`ERROR` with the message. -/
theorem C7_failure_to_error_witness :
    (fetchNextQuestion (initialAppData StorageRead.missing true)
        (Except.error "down")).1.appState = AppState.ERROR :=
  (C7_failure_to_error.2.1 (initialAppData StorageRead.missing true) "down"
    (by decide)).1

/-- C8 counterexample: the mount effect stores the `JSON.parse` result
with no shape check, so persisted data that parses to something other than
a history list — here the JSON document `"hello"` — is NOT treated as an
empty history: the raw history value after mount is the junk string, which
decodes to no history list and differs from the empty-history value the
claim prescribes. -/
theorem C8_counterexample :
    loadHistoryRaw (StorageRead.parsed (JsValue.jstr "hello")) =
      JsValue.jstr "hello" ∧
    decodeHistory (JsValue.jstr "hello") = none ∧
    loadHistoryRaw (StorageRead.parsed (JsValue.jstr "hello")) ≠
      encodeHistory [] := by
  refine ⟨rfl, rfl, fun h => ?_⟩
  exact JsValue.noConfusion h

/-- C8 amended: persistence is non-fatal against missing or
parse-throwing data only.  The record is read once at mount: a missing
record or one on which `JSON.parse` throws leaves the initial empty
history (the exception is caught, no crash at load time), but any value
that parses is stored unchecked, junk included.  The whole list is
serialized on every mutation: a successful write stores the serialized
list, which round-trips back to the same well-typed history, and a failed
write is a caught no-op on the stored record. -/
theorem C8_persistence_amended :
    loadHistoryRaw StorageRead.missing = encodeHistory [] ∧
    loadHistoryRaw StorageRead.corrupt = encodeHistory [] ∧
    (∀ v, loadHistoryRaw (StorageRead.parsed v) = v) ∧
    (∀ h, decodeHistory (encodeHistory h) = some h) ∧
    (∀ r, loadHistory r = (decodeHistory (loadHistoryRaw r)).getD []) ∧
    (∀ r dark, (initialAppData r dark).history = loadHistory r) ∧
    (∀ st h, loadHistory (saveHistory st h true) = h) ∧
    (∀ st h, saveHistory st h false = st) := by
  refine ⟨rfl, rfl, fun v => rfl, fun h => decodeHistory_encodeHistory h,
    fun r => ?_, fun r dark => rfl,
    fun st h => by
      simp [saveHistory, loadHistory, decodeHistory_encodeHistory],
    fun st h => by simp [saveHistory]⟩
  cases r <;> rfl

/-- C9: selecting a history entry resets all transient state, loads the
entry's topic, guide and sources, keeps the history, and lands in
`STUDYING`; the handler is a pure function of the state and the item, with
no Content Service call. -/
theorem C9_select_history (s : AppData) (item : HistoryItem) :
    handleSelectHistoryItem s item =
      { appState := AppState.STUDYING, error := none, topic := item.topic,
        studyGuide := item.guide, sources := item.sources, keyPoints := "",
        summary := "", questionsAsked := [], currentQuestion := "",
        userAnswer := "", feedback := none, score := 0,
        history := s.history, darkMode := s.darkMode } := rfl

/-- C4: history add is idempotent per case-insensitive topic.  Submitting
a fresh topic prepends one entry; resubmitting the same topic in any
letter case (with any newly generated guide and sources) leaves the
history unchanged, so exactly one entry for that topic remains, carrying
the first submission's guide and sources; and no call of the handler ever
updates or removes an existing entry (it either keeps the history or
prepends to it). -/
theorem C4_history_add_idempotent (s : AppData) (t2 guide1 guide2 : String)
    (srcs1 srcs2 : List Source)
    (hne : isBlank s.topic = false)
    (hnew : s.history.any
        (fun item => jsToLower item.topic == jsToLower s.topic) = false)
    (ht2 : jsToLower t2 = jsToLower s.topic)
    (ht2ne : isBlank t2 = false) :
    ((handleTopicSubmit s (Except.ok (guide1, srcs1))).1.history =
        ⟨s.topic, guide1, srcs1⟩ :: s.history) ∧
    ((handleTopicSubmit
        { (handleTopicSubmit s (Except.ok (guide1, srcs1))).1 with
            topic := t2 }
        (Except.ok (guide2, srcs2))).1.history =
      ⟨s.topic, guide1, srcs1⟩ :: s.history) ∧
    ((⟨s.topic, guide1, srcs1⟩ :: s.history).filter
        (fun item => jsToLower item.topic == jsToLower s.topic) =
      [⟨s.topic, guide1, srcs1⟩]) ∧
    (∀ (s' : AppData) svc,
      (handleTopicSubmit s' svc).1.history = s'.history ∨
      ∃ e, (handleTopicSubmit s' svc).1.history = e :: s'.history) := by
  have hs1 : (handleTopicSubmit s (Except.ok (guide1, srcs1))).1 =
      { appState := AppState.STUDYING, error := none, topic := s.topic,
        studyGuide := guide1, sources := srcs1, keyPoints := "",
        summary := "", questionsAsked := [], currentQuestion := "",
        userAnswer := "", feedback := none, score := 0,
        history := ⟨s.topic, guide1, srcs1⟩ :: s.history,
        darkMode := s.darkMode } := by
    simp [handleTopicSubmit, hne, topicSubmitStart, resetQuizState, hnew]
  refine ⟨by rw [hs1], ?_, ?_, ?_⟩
  · rw [hs1]
    simp [handleTopicSubmit, topicSubmitStart, resetQuizState, ht2ne, ht2]
  · have hnil : s.history.filter
        (fun item => jsToLower item.topic == jsToLower s.topic) = [] := by
      simp only [List.any_eq_false] at hnew
      simpa [List.filter_eq_nil_iff] using hnew
    simp [List.filter_cons, hnil]
  · intro s' svc
    by_cases hb : isBlank s'.topic
    · left; simp [handleTopicSubmit, hb]
    · cases svc with
      | ok r =>
        obtain ⟨g, sr⟩ := r
        by_cases hdup : s'.history.any
            (fun item => jsToLower item.topic == jsToLower s'.topic)
        · left
          simp [handleTopicSubmit, hb, hdup, topicSubmitStart, resetQuizState]
        · right
          exact ⟨⟨s'.topic, g, sr⟩, by
            simp [handleTopicSubmit, hb, hdup, topicSubmitStart,
              resetQuizState]⟩
      | error msg =>
        left; simp [handleTopicSubmit, hb, topicSubmitStart, resetQuizState]

/-- C4 witness: submitting "Tea" then "tEA" from an empty history leaves
one entry holding the first guide. -/
theorem C4_history_add_idempotent_witness :
    (handleTopicSubmit
        { (handleTopicSubmit
            { initialAppData StorageRead.missing true with topic := "Tea" }
            (Except.ok ("g1", []))).1 with topic := "tEA" }
        (Except.ok ("g2", []))).1.history =
      [⟨"Tea", "g1", []⟩] :=
  (C4_history_add_idempotent
    { initialAppData StorageRead.missing true with topic := "Tea" }
    "tEA" "g1" "g2" [] [] (by decide) (by decide) (by decide)
    (by decide)).2.1

/-- C5 counterexample: from a `STUDYING` state currently displaying the
summary, toggling key points twice does not return the display to its
original state: the first toggle clears the summary (mutual exclusion)
and the second toggle-off does not restore it. -/
theorem C5_counterexample :
    (handleGetKeyPoints
        (handleGetKeyPoints
          { initialAppData StorageRead.missing true with
              appState := AppState.STUDYING, studyGuide := "g",
              summary := "S" }
          (Except.ok "K")).1
        (Except.ok "K2")).1.summary = "" ∧
    (handleGetKeyPoints
        (handleGetKeyPoints
          { initialAppData StorageRead.missing true with
              appState := AppState.STUDYING, studyGuide := "g",
              summary := "S" }
          (Except.ok "K")).1
        (Except.ok "K2")).1 ≠
      { initialAppData StorageRead.missing true with
          appState := AppState.STUDYING, studyGuide := "g",
          summary := "S" } := by decide

/-- C5 amended: the conditional handler behavior is as the claim states
(populated text: clear it, no service call; empty text: clear the other
text, call the service, populate on success, `ERROR` on failure), and
toggling a panel on and then off returns the state exactly to the
original — with no service call on the toggle-off — provided the other
panel's text was empty before the first toggle (if it was populated, the
first toggle clears it and the second does not restore it). -/
theorem C5_toggle_amended (s : AppData) :
    (∀ svc, s.keyPoints.isEmpty = false →
      handleGetKeyPoints s svc = ({ s with keyPoints := "" }, false)) ∧
    (∀ svc, s.summary.isEmpty = false →
      handleGetSummary s svc = ({ s with summary := "" }, false)) ∧
    (∀ pts, s.keyPoints.isEmpty = true →
      handleGetKeyPoints s (Except.ok pts) =
        ({ s with summary := "", keyPoints := pts,
                  appState := AppState.STUDYING }, true)) ∧
    (∀ txt, s.summary.isEmpty = true →
      handleGetSummary s (Except.ok txt) =
        ({ s with keyPoints := "", summary := txt,
                  appState := AppState.STUDYING }, true)) ∧
    (∀ msg, s.keyPoints.isEmpty = true →
      handleGetKeyPoints s (Except.error msg) =
        ({ s with summary := "", error := some msg,
                  appState := AppState.ERROR }, true)) ∧
    (∀ msg, s.summary.isEmpty = true →
      handleGetSummary s (Except.error msg) =
        ({ s with keyPoints := "", error := some msg,
                  appState := AppState.ERROR }, true)) ∧
    (∀ pts svc2, s.appState = AppState.STUDYING → s.keyPoints = "" →
      s.summary = "" → pts.isEmpty = false →
      handleGetKeyPoints (handleGetKeyPoints s (Except.ok pts)).1 svc2 =
        (s, false)) ∧
    (∀ txt svc2, s.appState = AppState.STUDYING → s.summary = "" →
      s.keyPoints = "" → txt.isEmpty = false →
      handleGetSummary (handleGetSummary s (Except.ok txt)).1 svc2 =
        (s, false)) := by
  refine ⟨fun svc h => by simp [handleGetKeyPoints, h],
    fun svc h => by simp [handleGetSummary, h],
    fun pts h => by simp [handleGetKeyPoints, h],
    fun txt h => by simp [handleGetSummary, h],
    fun msg h => by simp [handleGetKeyPoints, h],
    fun msg h => by simp [handleGetSummary, h],
    fun pts svc2 h1 h2 h3 h4 => ?_,
    fun txt svc2 h1 h2 h3 h4 => ?_⟩
  · obtain ⟨as, er, tp, sg, sr, kp, sm, qa, cq, ua, fb, sc, hi, dm⟩ := s
    simp only at h1 h2 h3
    subst h1; subst h2; subst h3
    simp +decide [handleGetKeyPoints, h4]
  · obtain ⟨as, er, tp, sg, sr, kp, sm, qa, cq, ua, fb, sc, hi, dm⟩ := s
    simp only at h1 h2 h3
    subst h1; subst h2; subst h3
    simp +decide [handleGetSummary, h4]

/-- C5 witness: a concrete on-off toggle of key points from a clean
`STUDYING` state restores the state exactly, with no call on the second
toggle. -/
theorem C5_toggle_amended_witness :
    handleGetKeyPoints
        (handleGetKeyPoints
          { initialAppData StorageRead.missing true with
              appState := AppState.STUDYING, studyGuide := "g" }
          (Except.ok "K")).1
        (Except.ok "K2") =
      ({ initialAppData StorageRead.missing true with
           appState := AppState.STUDYING, studyGuide := "g" }, false) :=
  (C5_toggle_amended
      { initialAppData StorageRead.missing true with
          appState := AppState.STUDYING, studyGuide := "g" }).2.2.2.2.2.2.1
    "K" (Except.ok "K2") rfl rfl rfl (by decide)

/-- C10: if the evaluation call fails, `handleAnswerSubmit` changes only
the app state (to `ERROR`) and the error message; score, questions asked,
current question, feedback, study guide, sources, topic and history are
all untouched. -/
theorem C10_answer_failure_atomic (s : AppData) (msg : String)
    (h : isBlank s.userAnswer = false) :
    (handleAnswerSubmit s (Except.error msg)).1 =
      { s with appState := AppState.ERROR, error := some msg } := by
  simp [handleAnswerSubmit, h]

/-- C10 witness: a concrete failing evaluation leaves score and questions
unchanged while entering `ERROR`. -/
theorem C10_answer_failure_atomic_witness :
    (handleAnswerSubmit
        { initialAppData StorageRead.missing true with userAnswer := "a" }
        (Except.error "down")).1 =
      { initialAppData StorageRead.missing true with
          userAnswer := "a", appState := AppState.ERROR,
          error := some "down" } :=
  C10_answer_failure_atomic
    { initialAppData StorageRead.missing true with userAnswer := "a" }
    "down" (by decide)

end StudyBuddy
